import Mathlib

/-!
Shallow embedding of the servo action translation layer of
`upkie/envs/upkie_servos.py` (class `UpkieServos`), together with the
pieces of its repository interface that the file uses:

* the kinematic model interface (joint name list and per-joint position,
  velocity and torque limits) consumed by the constructor,
* the bounds, default, min and max tables built by the constructor,
* the `action_space` and `observation_space` descriptors,
* the command translator `get_spine_action`,
* the exceptions `ModelError` and `ActionError` and the clamping helper
  `clamp_and_warn`.

Scalars are embedded as rationals: the claims under study concern
ordering, clamping, defaulting and structural completeness, none of
which depends on floating-point rounding.
-/

/-- The six per-joint command fields, in the order of
`UpkieServos.ACTION_KEYS`.  The translator only ever reads these six
keys from a caller action, so unknown field names in a caller
dictionary are never observed and are not modelled. -/
inductive ActionKey where
  | position
  | velocity
  | feedforward_torque
  | kp_scale
  | kd_scale
  | maximum_torque
deriving DecidableEq

/-- String name of an action key, as it appears in the Python source. -/
def ActionKey.name : ActionKey → String
  | .position => "position"
  | .velocity => "velocity"
  | .feedforward_torque => "feedforward_torque"
  | .kp_scale => "kp_scale"
  | .kd_scale => "kd_scale"
  | .maximum_torque => "maximum_torque"

/-- `UpkieServos.ACTION_KEYS`, in source order. -/
def ACTION_KEYS : List ActionKey :=
  [.position, .velocity, .feedforward_torque, .kp_scale, .kd_scale,
   .maximum_torque]

/-- `UpkieServos.JOINT_NAMES`, in source order. -/
def JOINT_NAMES : List String :=
  ["left_hip", "left_knee", "left_wheel", "right_hip", "right_knee",
   "right_wheel"]

/-- Per-joint limits read from the kinematic model: position limit pair,
velocity magnitude limit and torque magnitude limit. -/
structure JointLimits where
  q_min : ℚ
  q_max : ℚ
  v_max : ℚ
  tau_max : ℚ
deriving DecidableEq

/-- Modelled from the spec: the kinematic model loader
(`upkie_description.load_in_pinocchio` and the box-limit helpers of
`upkie.utils.pinocchio`) is not under `src/`.  Per the spec, the model
supplies a joint name list and, per joint, a position limit pair, a
velocity magnitude limit and a torque magnitude limit.  `names` stands
for `list(model.names)[1:]`; `limits` answers the four per-joint limit
queries by joint name. -/
structure KinematicModel where
  names : List String
  limits : String → JointLimits

/-- Sanity conditions on the limits reported by the model: the position
interval is non-empty and the velocity and torque magnitudes are
non-negative.  The physical robot description satisfies these. -/
def KinematicModel.Wellformed (m : KinematicModel) : Prop :=
  ∀ j : String,
    (m.limits j).q_min ≤ (m.limits j).q_max ∧
    0 ≤ (m.limits j).v_max ∧ 0 ≤ (m.limits j).tau_max

/-- Modelled from the spec: `ModelError` lives in
`upkie.utils.exceptions`, which is not under `src/`.  The constructor
raises it with a message carrying both the expected joint names and the
joint names found in the model. -/
inductive ModelErr where
  | jointMismatch (expected : List String) (actual : List String)
deriving DecidableEq

/-- Modelled from the spec: `ActionError` lives in
`upkie.utils.exceptions`, which is not under `src/`.  The translator
raises it with a message naming the missing key and the joint. -/
inductive ActionErr where
  | missingKey (key : ActionKey) (joint : String)
deriving DecidableEq

/-- The message string built at the raise site in `get_spine_action`. -/
def ActionErr.message : ActionErr → String
  | .missingKey k j =>
      "Missing key \"" ++ ActionKey.name k ++ "\" required for joint \""
        ++ j ++ "\""

/-- A clamp warning, identifying the label (joint and field), the
original value and the clamped value. -/
structure ClampWarning where
  label : String
  original : ℚ
  clamped : ℚ
deriving DecidableEq

/-- Modelled from the spec: `clamp_and_warn` from `upkie.utils.clamp` is
not under `src/`.  Per spec section 4.3 step 4, it clamps `value` into
the interval from `lo` to `hi`; when the raw value falls outside the
bound it returns the bound and emits a warning identifying the label,
the original value and the clamped value. -/
def clamp_and_warn (value lo hi : ℚ) (label : String) :
    ℚ × Option ClampWarning :=
  if value < lo then (lo, some ⟨label, value, lo⟩)
  else if hi < value then (hi, some ⟨label, value, hi⟩)
  else (value, none)

/-- The `__init__` joint-set check: Python compares
`set(joint_names) != set(self.JOINT_NAMES)` and raises `ModelError`
carrying both tuples on mismatch.  Set comparison is embedded as
`Finset` equality of the two name lists. -/
def init_env (m : KinematicModel) : Except ModelErr Unit :=
  if m.names.toFinset = JOINT_NAMES.toFinset then Except.ok ()
  else Except.error (ModelErr.jointMismatch JOINT_NAMES m.names)

/-- The `default_action` table built by `__init__`: `position` and
`velocity` deliberately have no default; the torque default is the
torque limit of the model for that joint. -/
def default_action (m : KinematicModel) (j : String) :
    ActionKey → Option ℚ
  | .position => none
  | .velocity => none
  | .feedforward_torque => some 0
  | .kp_scale => some 1
  | .kd_scale => some 1
  | .maximum_torque => some (m.limits j).tau_max

/-- The `max_action` table built by `__init__`. -/
def max_action (m : KinematicModel) (j : String) : ActionKey → ℚ
  | .position => (m.limits j).q_max
  | .velocity => (m.limits j).v_max
  | .feedforward_torque => (m.limits j).tau_max
  | .kp_scale => 1
  | .kd_scale => 1
  | .maximum_torque => (m.limits j).tau_max

/-- The `min_action` table built by `__init__`. -/
def min_action (m : KinematicModel) (j : String) : ActionKey → ℚ
  | .position => (m.limits j).q_min
  | .velocity => -(m.limits j).v_max
  | .feedforward_torque => -(m.limits j).tau_max
  | .kp_scale => 0
  | .kd_scale => 0
  | .maximum_torque => 0

/-- A scalar range of one `spaces.Box` entry (shape and dtype are
constant in the source and carry no information). -/
structure Box where
  low : ℚ
  high : ℚ
deriving DecidableEq

/-- The `action_space` descriptor built per joint by `__init__`. -/
def action_space (m : KinematicModel) (j : String) : ActionKey → Box
  | .position => ⟨(m.limits j).q_min, (m.limits j).q_max⟩
  | .velocity => ⟨-(m.limits j).v_max, (m.limits j).v_max⟩
  | .feedforward_torque => ⟨-(m.limits j).tau_max, (m.limits j).tau_max⟩
  | .kp_scale => ⟨0, 1⟩
  | .kd_scale => ⟨0, 1⟩
  | .maximum_torque => ⟨0, (m.limits j).tau_max⟩

/-- The `observation_space` descriptor: the source fills it in the same
loop, with the same `spaces.Box` arguments, as `action_space`. -/
def observation_space (m : KinematicModel) (j : String) : ActionKey → Box
  | .position => ⟨(m.limits j).q_min, (m.limits j).q_max⟩
  | .velocity => ⟨-(m.limits j).v_max, (m.limits j).v_max⟩
  | .feedforward_torque => ⟨-(m.limits j).tau_max, (m.limits j).tau_max⟩
  | .kp_scale => ⟨0, 1⟩
  | .kd_scale => ⟨0, 1⟩
  | .maximum_torque => ⟨0, (m.limits j).tau_max⟩

/-- A caller structured action: per joint name, optionally a sub-mapping
giving, per field, optionally a scalar.  `none` at the joint level
stands for a joint name absent from the caller dictionary. -/
abbrev StructuredAction := String → Option (ActionKey → Option ℚ)

/-- The command batch sent to the spine: the value of the single
`"servo"` key, an association of joint names to per-field commands. -/
structure SpineAction where
  servo : List (String × List (ActionKey × ℚ))
deriving DecidableEq

/-- Field lookup in a command batch. -/
def SpineAction.lookup (sa : SpineAction) (j : String) (k : ActionKey) :
    Option ℚ :=
  (List.lookup j sa.servo).bind (fun cmds => List.lookup k cmds)

/-- One resolution step of `get_spine_action`: the Python expression
`env_action[joint][key] if key in env_action[joint] else
default_action[joint][key]`, inside a `try` that turns any `KeyError`
(joint absent from the caller action, or key absent from both the
caller action and the default table) into an `ActionError`. -/
def resolve_value (m : KinematicModel) (ea : StructuredAction)
    (j : String) (k : ActionKey) : Except ActionErr ℚ :=
  match ea j with
  | none => Except.error (ActionErr.missingKey k j)
  | some a =>
    match a k with
    | some v => Except.ok v
    | none =>
      match default_action m j k with
      | some d => Except.ok d
      | none => Except.error (ActionErr.missingKey k j)

/-- The inner loop of `get_spine_action` over `ACTION_KEYS` for one
joint: resolve each key, clamp it, collect the clamped values in key
order together with the clamp warnings; the first resolution failure
aborts the call, as the Python `raise` does. -/
def translate_joint (m : KinematicModel) (ea : StructuredAction)
    (j : String) :
    List ActionKey →
      Except ActionErr (List (ActionKey × ℚ) × List ClampWarning)
  | [] => Except.ok ([], [])
  | k :: ks =>
    match resolve_value m ea j k with
    | Except.error e => Except.error e
    | Except.ok v =>
      let cw := clamp_and_warn v (min_action m j k) (max_action m j k)
        (j ++ ": " ++ ActionKey.name k)
      match translate_joint m ea j ks with
      | Except.error e => Except.error e
      | Except.ok (rest, ws) =>
          Except.ok ((k, cw.1) :: rest, cw.2.toList ++ ws)

/-- The outer loop of `get_spine_action` over a list of joints. -/
def translate_joints (m : KinematicModel) (ea : StructuredAction) :
    List String →
      Except ActionErr
        (List (String × List (ActionKey × ℚ)) × List ClampWarning)
  | [] => Except.ok ([], [])
  | j :: js =>
    match translate_joint m ea j ACTION_KEYS with
    | Except.error e => Except.error e
    | Except.ok (cmds, ws) =>
      match translate_joints m ea js with
      | Except.error e => Except.error e
      | Except.ok (rest, ws2) =>
          Except.ok ((j, cmds) :: rest, ws ++ ws2)

/-- `UpkieServos.get_spine_action`: build the full command batch for the
six fixed joints, or fail with the first `ActionError`.  Clamp warnings
are returned alongside a successful batch. -/
def get_spine_action (m : KinematicModel) (ea : StructuredAction) :
    Except ActionErr (SpineAction × List ClampWarning) :=
  match translate_joints m ea JOINT_NAMES with
  | Except.error e => Except.error e
  | Except.ok (servo, ws) => Except.ok (⟨servo⟩, ws)

/-- `UpkieServos.get_env_observation`: identity on the spine
observation. -/
def get_env_observation (spine_observation : α) : α := spine_observation

/-- `UpkieServos.get_reward`: constant `1.0`. -/
def get_reward (observation : α) (action : β) : ℚ := 1

/-- The value that a successful resolution step produces (with an
irrelevant fallback of `0` in the failure case, which the lemmas below
only use under a success hypothesis). -/
def resolvedQ (m : KinematicModel) (ea : StructuredAction) (j : String)
    (k : ActionKey) : ℚ :=
  (resolve_value m ea j k).toOption.getD 0

/-- The clamped value and optional warning produced for one joint and
key on the success path of the translator. -/
def clampedPair (m : KinematicModel) (ea : StructuredAction) (j : String)
    (k : ActionKey) : ℚ × Option ClampWarning :=
  clamp_and_warn (resolvedQ m ea j k) (min_action m j k)
    (max_action m j k) (j ++ ": " ++ ActionKey.name k)

/-- A caller action has an entry for joint `j` that supplies the two
required fields, `position` and `velocity`. -/
def HasRequired (ea : StructuredAction) (j : String) : Prop :=
  ∃ a, ea j = some a ∧ (∃ p, a ActionKey.position = some p) ∧
    (∃ v, a ActionKey.velocity = some v)

/-- The command batch produced on the success path. -/
def okBatch (m : KinematicModel) (ea : StructuredAction) : SpineAction :=
  ⟨JOINT_NAMES.map (fun j =>
    (j, ACTION_KEYS.map (fun k => (k, (clampedPair m ea j k).1))))⟩

/-- The clamp warnings produced on the success path, in emission
order. -/
def okWarnings (m : KinematicModel) (ea : StructuredAction) :
    List ClampWarning :=
  JOINT_NAMES.flatMap (fun j =>
    ACTION_KEYS.flatMap (fun k => (clampedPair m ea j k).2.toList))

lemma resolve_ok_of_some {m : KinematicModel} {ea : StructuredAction}
    {j : String} {a : ActionKey → Option ℚ} {k : ActionKey} {v : ℚ}
    (ha : ea j = some a) (hk : a k = some v) :
    resolve_value m ea j k = Except.ok v := by
  simp [resolve_value, ha, hk]

lemma resolve_ok_default {m : KinematicModel} {ea : StructuredAction}
    {j : String} {a : ActionKey → Option ℚ} {k : ActionKey} {d : ℚ}
    (ha : ea j = some a) (hk : a k = none)
    (hd : default_action m j k = some d) :
    resolve_value m ea j k = Except.ok d := by
  simp [resolve_value, ha, hk, hd]

lemma resolve_ok_of_required {m : KinematicModel} {ea : StructuredAction}
    {j : String} (h : HasRequired ea j) (k : ActionKey) :
    ∃ v, resolve_value m ea j k = Except.ok v := by
  obtain ⟨a, ha, ⟨p, hp⟩, ⟨w, hw⟩⟩ := h
  cases k with
  | position => exact ⟨p, resolve_ok_of_some ha hp⟩
  | velocity => exact ⟨w, resolve_ok_of_some ha hw⟩
  | feedforward_torque =>
    cases hk : a ActionKey.feedforward_torque with
    | some u => exact ⟨u, resolve_ok_of_some ha hk⟩
    | none => exact ⟨0, resolve_ok_default ha hk rfl⟩
  | kp_scale =>
    cases hk : a ActionKey.kp_scale with
    | some u => exact ⟨u, resolve_ok_of_some ha hk⟩
    | none => exact ⟨1, resolve_ok_default ha hk rfl⟩
  | kd_scale =>
    cases hk : a ActionKey.kd_scale with
    | some u => exact ⟨u, resolve_ok_of_some ha hk⟩
    | none => exact ⟨1, resolve_ok_default ha hk rfl⟩
  | maximum_torque =>
    cases hk : a ActionKey.maximum_torque with
    | some u => exact ⟨u, resolve_ok_of_some ha hk⟩
    | none => exact ⟨(m.limits j).tau_max, resolve_ok_default ha hk rfl⟩

lemma resolvedQ_eq {m : KinematicModel} {ea : StructuredAction}
    {j : String} {k : ActionKey} {v : ℚ}
    (h : resolve_value m ea j k = Except.ok v) :
    resolvedQ m ea j k = v := by
  simp [resolvedQ, h, Except.toOption]

lemma translate_joint_ok {m : KinematicModel} {ea : StructuredAction}
    {j : String} (ks : List ActionKey)
    (hk : ∀ k ∈ ks, ∃ v, resolve_value m ea j k = Except.ok v) :
    translate_joint m ea j ks =
      Except.ok (ks.map (fun k => (k, (clampedPair m ea j k).1)),
        ks.flatMap (fun k => (clampedPair m ea j k).2.toList)) := by
  induction ks with
  | nil => rfl
  | cons k ks ih =>
    obtain ⟨v, hv⟩ := hk k (List.mem_cons_self k ks)
    have hres : resolvedQ m ea j k = v := resolvedQ_eq hv
    have ihx := ih (fun kk hkk => hk kk (List.mem_cons_of_mem k hkk))
    simp only [translate_joint, hv, ihx, List.map_cons, List.flatMap_cons]
    simp [clampedPair, hres]

lemma translate_joints_ok {m : KinematicModel} {ea : StructuredAction}
    (L : List String)
    (h : ∀ j ∈ L, ∀ k ∈ ACTION_KEYS, ∃ v,
      resolve_value m ea j k = Except.ok v) :
    translate_joints m ea L =
      Except.ok (L.map (fun j =>
          (j, ACTION_KEYS.map (fun k => (k, (clampedPair m ea j k).1)))),
        L.flatMap (fun j =>
          ACTION_KEYS.flatMap (fun k => (clampedPair m ea j k).2.toList)))
    := by
  induction L with
  | nil => rfl
  | cons j js ih =>
    have h1 := translate_joint_ok ACTION_KEYS
      (h j (List.mem_cons_self j js))
    have ihx := ih (fun jj hjj => h jj (List.mem_cons_of_mem j hjj))
    simp only [translate_joints, h1, ihx, List.map_cons, List.flatMap_cons]

lemma get_spine_action_ok {m : KinematicModel} {ea : StructuredAction}
    (h : ∀ j ∈ JOINT_NAMES, HasRequired ea j) :
    get_spine_action m ea = Except.ok (okBatch m ea, okWarnings m ea) := by
  have hres : ∀ j ∈ JOINT_NAMES, ∀ k ∈ ACTION_KEYS, ∃ v,
      resolve_value m ea j k = Except.ok v :=
    fun j hj k _ => resolve_ok_of_required (h j hj) k
  simp only [get_spine_action, translate_joints_ok JOINT_NAMES hres]
  rfl

lemma min_action_le_max_action {m : KinematicModel}
    (hwf : m.Wellformed) (j : String) (k : ActionKey) :
    min_action m j k ≤ max_action m j k := by
  obtain ⟨h1, h2, h3⟩ := hwf j
  cases k <;> simp [min_action, max_action] <;> linarith

lemma clamp_mem {lo hi : ℚ} (h : lo ≤ hi) (v : ℚ) (lbl : String) :
    lo ≤ (clamp_and_warn v lo hi lbl).1 ∧
      (clamp_and_warn v lo hi lbl).1 ≤ hi := by
  unfold clamp_and_warn
  split_ifs with h1 h2 <;> constructor <;> simp <;> linarith

lemma clamp_id {lo hi v : ℚ} (h1 : lo ≤ v) (h2 : v ≤ hi)
    (lbl : String) : clamp_and_warn v lo hi lbl = (v, none) := by
  unfold clamp_and_warn
  split_ifs with ha hb
  · linarith
  · linarith
  · rfl

lemma clamp_high {lo hi v : ℚ} (h : lo ≤ hi) (hv : hi < v)
    (lbl : String) :
    clamp_and_warn v lo hi lbl = (hi, some ⟨lbl, v, hi⟩) := by
  unfold clamp_and_warn
  rw [if_neg (not_lt.mpr (le_of_lt (lt_of_le_of_lt h hv))), if_pos hv]

lemma clamp_low {lo hi v : ℚ} (hv : v < lo) (lbl : String) :
    clamp_and_warn v lo hi lbl = (lo, some ⟨lbl, v, lo⟩) := by
  unfold clamp_and_warn
  rw [if_pos hv]

lemma lookup_map_self {α β : Type} [DecidableEq α] (f : α → β)
    (l : List α) (a : α) (h : a ∈ l) :
    List.lookup a (l.map (fun x => (x, f x))) = some (f a) := by
  induction l with
  | nil => cases h
  | cons x xs ih =>
    by_cases hax : a = x
    · subst hax
      simp [List.lookup]
    · have hmem : a ∈ xs := by
        rcases List.mem_cons.mp h with h1 | h1
        · exact absurd h1 hax
        · exact h1
      simpa [List.lookup, beq_eq_false_iff_ne.mpr hax] using ih hmem

lemma okBatch_lookup {m : KinematicModel} {ea : StructuredAction}
    {j : String} {k : ActionKey} (hj : j ∈ JOINT_NAMES)
    (hk : k ∈ ACTION_KEYS) :
    (okBatch m ea).lookup j k = some ((clampedPair m ea j k).1) := by
  unfold okBatch SpineAction.lookup
  rw [lookup_map_self _ _ _ hj]
  simp only [Option.some_bind]
  exact lookup_map_self _ _ _ hk

lemma okBatch_keys {m : KinematicModel} {ea : StructuredAction} :
    (okBatch m ea).servo.map Prod.fst = JOINT_NAMES := by
  simp [okBatch, Function.comp_def]

lemma mem_okWarnings {m : KinematicModel} {ea : StructuredAction}
    {j : String} {k : ActionKey} {w : ClampWarning}
    (hj : j ∈ JOINT_NAMES) (hk : k ∈ ACTION_KEYS)
    (hw : (clampedPair m ea j k).2 = some w) :
    w ∈ okWarnings m ea := by
  simp only [okWarnings, List.mem_flatMap]
  exact ⟨j, hj, k, hk, by simp [hw]⟩

lemma okWarnings_nil {m : KinematicModel} {ea : StructuredAction}
    (h : ∀ j ∈ JOINT_NAMES, ∀ k ∈ ACTION_KEYS,
      (clampedPair m ea j k).2 = none) :
    okWarnings m ea = [] := by
  simp only [okWarnings, List.flatMap_eq_nil_iff]
  intro j hj k hk
  simp [h j hj k hk]

lemma translate_joint_err_nojoint {m : KinematicModel}
    {ea : StructuredAction} {j : String} (ha : ea j = none) :
    translate_joint m ea j ACTION_KEYS =
      Except.error (ActionErr.missingKey ActionKey.position j) := by
  simp [ACTION_KEYS, translate_joint, resolve_value, ha]

lemma translate_joint_err_position {m : KinematicModel}
    {ea : StructuredAction} {j : String} {a : ActionKey → Option ℚ}
    (ha : ea j = some a) (hp : a ActionKey.position = none) :
    translate_joint m ea j ACTION_KEYS =
      Except.error (ActionErr.missingKey ActionKey.position j) := by
  simp [ACTION_KEYS, translate_joint, resolve_value, ha, hp,
    default_action]

lemma translate_joint_err_velocity {m : KinematicModel}
    {ea : StructuredAction} {j : String} {a : ActionKey → Option ℚ}
    {p : ℚ} (ha : ea j = some a) (hp : a ActionKey.position = some p)
    (hv : a ActionKey.velocity = none) :
    translate_joint m ea j ACTION_KEYS =
      Except.error (ActionErr.missingKey ActionKey.velocity j) := by
  have h1 : resolve_value m ea j ActionKey.position = Except.ok p :=
    resolve_ok_of_some ha hp
  have h2 : resolve_value m ea j ActionKey.velocity =
      Except.error (ActionErr.missingKey ActionKey.velocity j) := by
    simp [resolve_value, ha, hv, default_action]
  simp [ACTION_KEYS, translate_joint, h1, h2]

lemma translate_joints_err {m : KinematicModel} {ea : StructuredAction}
    {j : String} {e : ActionErr} (L : List String) (hjL : j ∈ L)
    (hothers : ∀ j2 ∈ L, j2 ≠ j → HasRequired ea j2)
    (herr : translate_joint m ea j ACTION_KEYS = Except.error e) :
    translate_joints m ea L = Except.error e := by
  induction L with
  | nil => cases hjL
  | cons x xs ih =>
    by_cases hx : x = j
    · subst hx
      simp [translate_joints, herr]
    · have hc : HasRequired ea x :=
        hothers x (List.mem_cons_self x xs) hx
      have hx1 := @translate_joint_ok m ea x ACTION_KEYS
        (fun k _ => resolve_ok_of_required hc k)
      have hmem : j ∈ xs := by
        rcases List.mem_cons.mp hjL with h1 | h1
        · exact absurd h1.symm hx
        · exact h1
      have ihx := ih hmem
        (fun j2 hj2 hne => hothers j2 (List.mem_cons_of_mem x hj2) hne)
      simp [translate_joints, hx1, ihx]

lemma get_spine_action_err {m : KinematicModel} {ea : StructuredAction}
    {j : String} {e : ActionErr} (hjL : j ∈ JOINT_NAMES)
    (hothers : ∀ j2 ∈ JOINT_NAMES, j2 ≠ j → HasRequired ea j2)
    (herr : translate_joint m ea j ACTION_KEYS = Except.error e) :
    get_spine_action m ea = Except.error e := by
  simp [get_spine_action, translate_joints_err JOINT_NAMES hjL hothers
    herr]

/-- A demonstration model with the fixed joint names and constant
limits: positions in the interval from `-1` to `1`, velocity magnitude
`10`, torque magnitude `5`. -/
def demoModel : KinematicModel :=
  ⟨JOINT_NAMES, fun _ => ⟨-1, 1, 10, 5⟩⟩

/-- A caller action that supplies value `0` for every field of every
joint. -/
def demoFull : StructuredAction := fun _ => some (fun _ => some 0)

/-- A per-joint sub-action giving `2` for `position` and `0` for every
other field. -/
def demoSubPos2 : ActionKey → Option ℚ :=
  fun k => if k = ActionKey.position then some 2 else some 0

/-- A caller action out of range at the left hip position. -/
def demoPos2 : StructuredAction := fun j =>
  if j = "left_hip" then some demoSubPos2 else some (fun _ => some 0)

/-- A per-joint sub-action supplying only `position` and `velocity`. -/
def demoSubReq : ActionKey → Option ℚ := fun k =>
  if k = ActionKey.position then some 0
  else if k = ActionKey.velocity then some 0
  else none

/-- A caller action that leaves every optional field of the left hip to
its default. -/
def demoDefaults : StructuredAction := fun j =>
  if j = "left_hip" then some demoSubReq else some (fun _ => some 0)

/-- A per-joint sub-action supplying only `position`. -/
def demoSubNoVel : ActionKey → Option ℚ := fun k =>
  if k = ActionKey.position then some 0 else none

/-- A caller action omitting `velocity` for the right wheel. -/
def demoNoVel : StructuredAction := fun j =>
  if j = "right_wheel" then some demoSubNoVel
  else some (fun _ => some 0)

/-- A caller action with no entry at all for the left knee. -/
def demoNoKnee : StructuredAction := fun j =>
  if j = "left_knee" then none else some (fun _ => some 0)

/-- Claim C1: for every structured action that supplies position and
velocity for all six joints, `get_spine_action` returns a command batch
of shape servo, joint, field containing all six fields for all six
joints, never partial, and every value in it lies between
`min_action` and `max_action` for its joint and field, inclusive. -/
theorem C1_spine_action_complete_bounded (m : KinematicModel)
    (ea : StructuredAction) (hwf : m.Wellformed)
    (hreq : ∀ j ∈ JOINT_NAMES, HasRequired ea j) :
    ∃ batch ws, get_spine_action m ea = Except.ok (batch, ws) ∧
      batch.servo.map Prod.fst = JOINT_NAMES ∧
      ∀ jc ∈ batch.servo, jc.2.map Prod.fst = ACTION_KEYS ∧
        ∀ kv ∈ jc.2, min_action m jc.1 kv.1 ≤ kv.2 ∧
          kv.2 ≤ max_action m jc.1 kv.1 := by
  refine ⟨okBatch m ea, okWarnings m ea, get_spine_action_ok hreq,
    okBatch_keys, ?_⟩
  intro jc hjc
  simp only [okBatch, List.mem_map] at hjc
  obtain ⟨j, hj, rfl⟩ := hjc
  refine ⟨by simp [Function.comp_def], ?_⟩
  intro kv hkv
  simp only [List.mem_map] at hkv
  obtain ⟨k, hk, rfl⟩ := hkv
  simpa [clampedPair] using
    clamp_mem (min_action_le_max_action hwf j k) (resolvedQ m ea j k)
      (j ++ ": " ++ ActionKey.name k)

/-- Claim C2: if the structured action contains an entry for a joint of
the fixed set but omits its `position` or `velocity` field (the other
joints being well supplied), `get_spine_action` fails with an
`ActionError` whose message names the missing field and the joint, and
no command batch is produced. -/
theorem C2_missing_required_field_error (m : KinematicModel)
    (ea : StructuredAction) (j : String) (a : ActionKey → Option ℚ)
    (f : ActionKey) (hj : j ∈ JOINT_NAMES) (ha : ea j = some a)
    (hcase : (f = ActionKey.position ∧ a ActionKey.position = none) ∨
      (f = ActionKey.velocity ∧ (∃ p, a ActionKey.position = some p) ∧
        a ActionKey.velocity = none))
    (hothers : ∀ j2 ∈ JOINT_NAMES, j2 ≠ j → HasRequired ea j2) :
    get_spine_action m ea =
      Except.error (ActionErr.missingKey f j) ∧
    (ActionErr.missingKey f j).message =
      "Missing key \"" ++ ActionKey.name f ++ "\" required for joint \""
        ++ j ++ "\"" := by
  constructor
  · rcases hcase with ⟨rfl, hp⟩ | ⟨rfl, ⟨p, hp⟩, hv⟩
    · exact get_spine_action_err hj hothers
        (translate_joint_err_position ha hp)
    · exact get_spine_action_err hj hothers
        (translate_joint_err_velocity ha hp hv)
  · rfl

/-- Claim C3: construction fails with a `ModelError` carrying both the
expected and the actual joint names exactly when the joint-name set of
the model differs from the fixed six-joint set, the comparison being
order-independent membership; when the sets agree construction
succeeds. -/
theorem C3_model_error_iff_joint_set_mismatch (m : KinematicModel) :
    (init_env m =
        Except.error (ModelErr.jointMismatch JOINT_NAMES m.names) ↔
      ¬ (∀ n, n ∈ m.names ↔ n ∈ JOINT_NAMES)) ∧
    (init_env m = Except.ok () ↔ ∀ n, n ∈ m.names ↔ n ∈ JOINT_NAMES) ∧
    (∀ e, init_env m = Except.error e →
      e = ModelErr.jointMismatch JOINT_NAMES m.names) := by
  have hiff : m.names.toFinset = JOINT_NAMES.toFinset ↔
      ∀ n, n ∈ m.names ↔ n ∈ JOINT_NAMES := by
    constructor
    · intro h n
      rw [← List.mem_toFinset, h, List.mem_toFinset]
    · intro h
      ext n
      simp only [List.mem_toFinset]
      exact h n
  unfold init_env
  by_cases hc : m.names.toFinset = JOINT_NAMES.toFinset
  · rw [if_pos hc]
    refine ⟨?_, ?_, ?_⟩
    · simp [hiff.mp hc]
    · simp [hiff.mp hc]
    · intro e he
      cases he
  · rw [if_neg hc]
    refine ⟨?_, ?_, ?_⟩
    · simp [hiff.not.mp hc]
    · simp [(hiff.not.mp hc)]
    · intro e he
      cases he
      rfl

/-- Claim C4: on a well-supplied action, a value above the maximum for
its joint and field is written back as exactly that maximum together
with a warning whose label names the joint and field and which records
the original and clamped values; symmetrically below the minimum; the
call still succeeds with a complete batch. -/
theorem C4_clamp_monotone_with_warning (m : KinematicModel)
    (ea : StructuredAction) (j : String) (a : ActionKey → Option ℚ)
    (k : ActionKey) (v : ℚ) (hwf : m.Wellformed)
    (hreq : ∀ j2 ∈ JOINT_NAMES, HasRequired ea j2)
    (hj : j ∈ JOINT_NAMES) (hk : k ∈ ACTION_KEYS)
    (ha : ea j = some a) (hv : a k = some v) :
    ∃ batch ws, get_spine_action m ea = Except.ok (batch, ws) ∧
      batch.servo.map Prod.fst = JOINT_NAMES ∧
      (max_action m j k < v →
        batch.lookup j k = some (max_action m j k) ∧
        (⟨j ++ ": " ++ ActionKey.name k, v, max_action m j k⟩ :
          ClampWarning) ∈ ws) ∧
      (v < min_action m j k →
        batch.lookup j k = some (min_action m j k) ∧
        (⟨j ++ ": " ++ ActionKey.name k, v, min_action m j k⟩ :
          ClampWarning) ∈ ws) := by
  have hres : resolvedQ m ea j k = v :=
    resolvedQ_eq (resolve_ok_of_some ha hv)
  refine ⟨okBatch m ea, okWarnings m ea, get_spine_action_ok hreq,
    okBatch_keys, ?_, ?_⟩
  · intro hgt
    have hcp : clampedPair m ea j k =
        (max_action m j k,
         some ⟨j ++ ": " ++ ActionKey.name k, v, max_action m j k⟩) := by
      rw [clampedPair, hres]
      exact clamp_high (min_action_le_max_action hwf j k) hgt _
    constructor
    · rw [okBatch_lookup hj hk, hcp]
    · exact mem_okWarnings hj hk (by rw [hcp])
  · intro hlt
    have hcp : clampedPair m ea j k =
        (min_action m j k,
         some ⟨j ++ ": " ++ ActionKey.name k, v, min_action m j k⟩) := by
      rw [clampedPair, hres]
      exact clamp_low hlt _
    constructor
    · rw [okBatch_lookup hj hk, hcp]
    · exact mem_okWarnings hj hk (by rw [hcp])

/-- Claim C5: on a well-supplied action, a joint entry that omits any of
the four optional fields receives the default for that field in the
output batch: `0` for `feedforward_torque`, `1` for `kp_scale` and
`kd_scale`, and the torque limit of the model for `maximum_torque`;
clamping leaves these defaults unchanged. -/
theorem C5_omitted_optional_fields_get_defaults (m : KinematicModel)
    (ea : StructuredAction) (j : String) (a : ActionKey → Option ℚ)
    (hwf : m.Wellformed)
    (hreq : ∀ j2 ∈ JOINT_NAMES, HasRequired ea j2)
    (hj : j ∈ JOINT_NAMES) (ha : ea j = some a) :
    ∃ batch ws, get_spine_action m ea = Except.ok (batch, ws) ∧
      (a ActionKey.feedforward_torque = none →
        batch.lookup j ActionKey.feedforward_torque = some 0) ∧
      (a ActionKey.kp_scale = none →
        batch.lookup j ActionKey.kp_scale = some 1) ∧
      (a ActionKey.kd_scale = none →
        batch.lookup j ActionKey.kd_scale = some 1) ∧
      (a ActionKey.maximum_torque = none →
        batch.lookup j ActionKey.maximum_torque =
          some (m.limits j).tau_max) := by
  obtain ⟨hq, hv, ht⟩ := hwf j
  refine ⟨okBatch m ea, okWarnings m ea, get_spine_action_ok hreq,
    ?_, ?_, ?_, ?_⟩
  · intro hnone
    have hres : resolvedQ m ea j ActionKey.feedforward_torque = 0 :=
      resolvedQ_eq (resolve_ok_default ha hnone rfl)
    rw [okBatch_lookup hj (by simp [ACTION_KEYS]), clampedPair, hres,
      clamp_id (by simp [min_action]; linarith)
        (by simp [max_action]; linarith) _]
  · intro hnone
    have hres : resolvedQ m ea j ActionKey.kp_scale = 1 :=
      resolvedQ_eq (resolve_ok_default ha hnone rfl)
    rw [okBatch_lookup hj (by simp [ACTION_KEYS]), clampedPair, hres,
      clamp_id (by simp [min_action]) (by simp [max_action]) _]
  · intro hnone
    have hres : resolvedQ m ea j ActionKey.kd_scale = 1 :=
      resolvedQ_eq (resolve_ok_default ha hnone rfl)
    rw [okBatch_lookup hj (by simp [ACTION_KEYS]), clampedPair, hres,
      clamp_id (by simp [min_action]) (by simp [max_action]) _]
  · intro hnone
    have hres : resolvedQ m ea j ActionKey.maximum_torque =
        (m.limits j).tau_max :=
      resolvedQ_eq (resolve_ok_default ha hnone rfl)
    rw [okBatch_lookup hj (by simp [ACTION_KEYS]), clampedPair, hres,
      clamp_id (by simp [min_action]; linarith)
        (by simp [max_action]) _]

/-- Claim C6: if every joint supplies all six fields and every supplied
value already lies within its bounds, `get_spine_action` returns
exactly the supplied values at every joint and field and emits no clamp
warning. -/
theorem C6_in_range_values_pass_through (m : KinematicModel)
    (ea : StructuredAction)
    (h : ∀ j ∈ JOINT_NAMES, ∃ a, ea j = some a ∧
      ∀ k ∈ ACTION_KEYS, ∃ v, a k = some v ∧
        min_action m j k ≤ v ∧ v ≤ max_action m j k) :
    ∃ batch, get_spine_action m ea = Except.ok (batch, []) ∧
      ∀ j ∈ JOINT_NAMES, ∀ a, ea j = some a →
        ∀ k ∈ ACTION_KEYS, ∀ v, a k = some v →
          batch.lookup j k = some v := by
  have hreq : ∀ j ∈ JOINT_NAMES, HasRequired ea j := by
    intro j hj
    obtain ⟨a, ha, hall⟩ := h j hj
    obtain ⟨p, hp, _⟩ := hall ActionKey.position (by simp [ACTION_KEYS])
    obtain ⟨w, hw, _⟩ := hall ActionKey.velocity (by simp [ACTION_KEYS])
    exact ⟨a, ha, ⟨p, hp⟩, ⟨w, hw⟩⟩
  have hcp : ∀ j ∈ JOINT_NAMES, ∀ a, ea j = some a →
      ∀ k ∈ ACTION_KEYS, ∀ v, a k = some v →
        clampedPair m ea j k = (v, none) := by
    intro j hj a ha k hk v hv
    obtain ⟨a2, ha2, hall⟩ := h j hj
    have haa : a2 = a := Option.some.inj (ha2.symm.trans ha)
    subst haa
    obtain ⟨v2, hv2, hlo, hhi⟩ := hall k hk
    have hvv : v = v2 := Option.some.inj (hv.symm.trans hv2)
    subst hvv
    have hres : resolvedQ m ea j k = v :=
      resolvedQ_eq (resolve_ok_of_some ha hv)
    rw [clampedPair, hres, clamp_id hlo hhi]
  have hws : okWarnings m ea = [] := by
    apply okWarnings_nil
    intro j hj k hk
    obtain ⟨a, ha, hall⟩ := h j hj
    obtain ⟨v, hv, _, _⟩ := hall k hk
    rw [hcp j hj a ha k hk v hv]
  refine ⟨okBatch m ea, ?_, ?_⟩
  · rw [get_spine_action_ok hreq, hws]
  · intro j hj a ha k hk v hv
    rw [okBatch_lookup hj hk, hcp j hj a ha k hk v hv]

/-- Claim C7: for a kinematic model whose joint-name set matches the
fixed six-joint set and whose limits are well-formed, construction
succeeds and the bounds tables satisfy min below max everywhere;
`kp_scale` and `kd_scale` bounds are exactly `0` and `1`, velocity and
feedforward torque bounds are symmetric around zero with the magnitude
of the model, position bounds equal the model joint limits, and
`maximum_torque` bounds run from `0` to the model torque limit. -/
theorem C7_bounds_tables_invariants (m : KinematicModel)
    (hset : ∀ n, n ∈ m.names ↔ n ∈ JOINT_NAMES)
    (hwf : m.Wellformed) :
    init_env m = Except.ok () ∧
    (∀ (j : String) (k : ActionKey),
      min_action m j k ≤ max_action m j k) ∧
    ∀ j : String,
      min_action m j ActionKey.kp_scale = 0 ∧
      max_action m j ActionKey.kp_scale = 1 ∧
      min_action m j ActionKey.kd_scale = 0 ∧
      max_action m j ActionKey.kd_scale = 1 ∧
      min_action m j ActionKey.velocity =
        -(max_action m j ActionKey.velocity) ∧
      max_action m j ActionKey.velocity = (m.limits j).v_max ∧
      min_action m j ActionKey.feedforward_torque =
        -(max_action m j ActionKey.feedforward_torque) ∧
      max_action m j ActionKey.feedforward_torque =
        (m.limits j).tau_max ∧
      min_action m j ActionKey.position = (m.limits j).q_min ∧
      max_action m j ActionKey.position = (m.limits j).q_max ∧
      min_action m j ActionKey.maximum_torque = 0 ∧
      max_action m j ActionKey.maximum_torque =
        (m.limits j).tau_max := by
  refine ⟨?_, min_action_le_max_action hwf, ?_⟩
  · have hc : m.names.toFinset = JOINT_NAMES.toFinset := by
      ext n
      simp only [List.mem_toFinset]
      exact hset n
    rw [init_env, if_pos hc]
  · intro j
    refine ⟨rfl, rfl, rfl, rfl, rfl, rfl, rfl, rfl, rfl, rfl, rfl, rfl⟩

/-- Claim C10: the `observation_space` descriptor has the identical
shape to `action_space`: for every joint and field, the same scalar
range, which moreover coincides with the min and max tables. -/
theorem C10_observation_space_mirrors_action_space
    (m : KinematicModel) (j : String) (k : ActionKey) :
    observation_space m j k = action_space m j k ∧
    (action_space m j k).low = min_action m j k ∧
    (action_space m j k).high = max_action m j k := by
  cases k <;> exact ⟨rfl, rfl, rfl⟩

/-- Claim C8: if the structured action has no entry at all for some
joint of the fixed six-joint set (the other joints being well
supplied), `get_spine_action` fails with an `ActionError` naming
`position`, the first field checked, as the missing key for that joint,
and no defaults are substituted for that joint. -/
theorem C8_missing_joint_entry_error (m : KinematicModel)
    (ea : StructuredAction) (j : String) (hj : j ∈ JOINT_NAMES)
    (ha : ea j = none)
    (hothers : ∀ j2 ∈ JOINT_NAMES, j2 ≠ j → HasRequired ea j2) :
    get_spine_action m ea =
      Except.error (ActionErr.missingKey ActionKey.position j) ∧
    (ActionErr.missingKey ActionKey.position j).message =
      "Missing key \"position\" required for joint \"" ++ j ++ "\"" := by
  constructor
  · exact get_spine_action_err hj hothers
      (translate_joint_err_nojoint ha)
  · rfl

theorem C1_witness :
    ∃ batch ws,
      get_spine_action demoModel demoFull = Except.ok (batch, ws) ∧
      batch.servo.map Prod.fst = JOINT_NAMES ∧
      ∀ jc ∈ batch.servo, jc.2.map Prod.fst = ACTION_KEYS ∧
        ∀ kv ∈ jc.2, min_action demoModel jc.1 kv.1 ≤ kv.2 ∧
          kv.2 ≤ max_action demoModel jc.1 kv.1 :=
  C1_spine_action_complete_bounded demoModel demoFull
    (fun j => by refine ⟨?_, ?_, ?_⟩ <;> norm_num [demoModel])
    (fun j hj => ⟨fun _ => some 0, rfl, ⟨0, rfl⟩, ⟨0, rfl⟩⟩)

theorem C2_witness :
    get_spine_action demoModel demoNoVel =
      Except.error
        (ActionErr.missingKey ActionKey.velocity "right_wheel") ∧
    (ActionErr.missingKey ActionKey.velocity "right_wheel").message =
      "Missing key \"" ++ ActionKey.name ActionKey.velocity
        ++ "\" required for joint \"" ++ "right_wheel" ++ "\"" :=
  C2_missing_required_field_error demoModel demoNoVel "right_wheel"
    demoSubNoVel ActionKey.velocity (by decide) rfl
    (Or.inr ⟨rfl, ⟨0, rfl⟩, rfl⟩)
    (by
      intro j2 hj2 hne
      refine ⟨fun _ => some 0, ?_, ⟨0, rfl⟩, ⟨0, rfl⟩⟩
      simp [demoNoVel, hne])

theorem C4_witness :
    ∃ batch ws,
      get_spine_action demoModel demoPos2 = Except.ok (batch, ws) ∧
      batch.servo.map Prod.fst = JOINT_NAMES ∧
      (max_action demoModel "left_hip" ActionKey.position < 2 →
        batch.lookup "left_hip" ActionKey.position =
          some (max_action demoModel "left_hip" ActionKey.position) ∧
        (⟨"left_hip" ++ ": " ++ ActionKey.name ActionKey.position, 2,
          max_action demoModel "left_hip" ActionKey.position⟩ :
          ClampWarning) ∈ ws) ∧
      ((2 : ℚ) < min_action demoModel "left_hip" ActionKey.position →
        batch.lookup "left_hip" ActionKey.position =
          some (min_action demoModel "left_hip" ActionKey.position) ∧
        (⟨"left_hip" ++ ": " ++ ActionKey.name ActionKey.position, 2,
          min_action demoModel "left_hip" ActionKey.position⟩ :
          ClampWarning) ∈ ws) :=
  C4_clamp_monotone_with_warning demoModel demoPos2 "left_hip"
    demoSubPos2 ActionKey.position 2
    (fun j => by refine ⟨?_, ?_, ?_⟩ <;> norm_num [demoModel])
    (by
      intro j2 hj2
      by_cases hx : j2 = "left_hip"
      · subst hx
        exact ⟨demoSubPos2, rfl, ⟨2, rfl⟩, ⟨0, rfl⟩⟩
      · refine ⟨fun _ => some 0, ?_, ⟨0, rfl⟩, ⟨0, rfl⟩⟩
        simp [demoPos2, hx])
    (by decide) (by decide) rfl rfl

theorem C5_witness :
    ∃ batch ws,
      get_spine_action demoModel demoDefaults = Except.ok (batch, ws) ∧
      (demoSubReq ActionKey.feedforward_torque = none →
        batch.lookup "left_hip" ActionKey.feedforward_torque =
          some 0) ∧
      (demoSubReq ActionKey.kp_scale = none →
        batch.lookup "left_hip" ActionKey.kp_scale = some 1) ∧
      (demoSubReq ActionKey.kd_scale = none →
        batch.lookup "left_hip" ActionKey.kd_scale = some 1) ∧
      (demoSubReq ActionKey.maximum_torque = none →
        batch.lookup "left_hip" ActionKey.maximum_torque =
          some (demoModel.limits "left_hip").tau_max) :=
  C5_omitted_optional_fields_get_defaults demoModel demoDefaults
    "left_hip" demoSubReq
    (fun j => by refine ⟨?_, ?_, ?_⟩ <;> norm_num [demoModel])
    (by
      intro j2 hj2
      by_cases hx : j2 = "left_hip"
      · subst hx
        exact ⟨demoSubReq, rfl, ⟨0, rfl⟩, ⟨0, rfl⟩⟩
      · refine ⟨fun _ => some 0, ?_, ⟨0, rfl⟩, ⟨0, rfl⟩⟩
        simp [demoDefaults, hx])
    (by decide) rfl

theorem C6_witness :
    ∃ batch,
      get_spine_action demoModel demoFull = Except.ok (batch, []) ∧
      ∀ j ∈ JOINT_NAMES, ∀ a, demoFull j = some a →
        ∀ k ∈ ACTION_KEYS, ∀ v, a k = some v →
          batch.lookup j k = some v :=
  C6_in_range_values_pass_through demoModel demoFull
    (by
      intro j hj
      refine ⟨fun _ => some 0, rfl, ?_⟩
      intro k hk
      exact ⟨0, rfl, by cases k <;> norm_num [min_action, demoModel],
        by cases k <;> norm_num [max_action, demoModel]⟩)

theorem C7_witness :
    init_env demoModel = Except.ok () ∧
    (∀ (j : String) (k : ActionKey),
      min_action demoModel j k ≤ max_action demoModel j k) ∧
    ∀ j : String,
      min_action demoModel j ActionKey.kp_scale = 0 ∧
      max_action demoModel j ActionKey.kp_scale = 1 ∧
      min_action demoModel j ActionKey.kd_scale = 0 ∧
      max_action demoModel j ActionKey.kd_scale = 1 ∧
      min_action demoModel j ActionKey.velocity =
        -(max_action demoModel j ActionKey.velocity) ∧
      max_action demoModel j ActionKey.velocity =
        (demoModel.limits j).v_max ∧
      min_action demoModel j ActionKey.feedforward_torque =
        -(max_action demoModel j ActionKey.feedforward_torque) ∧
      max_action demoModel j ActionKey.feedforward_torque =
        (demoModel.limits j).tau_max ∧
      min_action demoModel j ActionKey.position =
        (demoModel.limits j).q_min ∧
      max_action demoModel j ActionKey.position =
        (demoModel.limits j).q_max ∧
      min_action demoModel j ActionKey.maximum_torque = 0 ∧
      max_action demoModel j ActionKey.maximum_torque =
        (demoModel.limits j).tau_max :=
  C7_bounds_tables_invariants demoModel (fun n => Iff.rfl)
    (fun j => by refine ⟨?_, ?_, ?_⟩ <;> norm_num [demoModel])

theorem C8_witness :
    get_spine_action demoModel demoNoKnee =
      Except.error
        (ActionErr.missingKey ActionKey.position "left_knee") ∧
    (ActionErr.missingKey ActionKey.position "left_knee").message =
      "Missing key \"position\" required for joint \""
        ++ "left_knee" ++ "\"" :=
  C8_missing_joint_entry_error demoModel demoNoKnee "left_knee"
    (by decide) rfl
    (by
      intro j2 hj2 hne
      refine ⟨fun _ => some 0, ?_, ⟨0, rfl⟩, ⟨0, rfl⟩⟩
      simp [demoNoKnee, hne])
